import Mathlib

/-!
# Random-question buffer of `client/singleplayer/index.js`

A shallow embedding of the fetch wrappers and of the prefetch buffer
`randomQuestions` of `src/client/singleplayer/index.js`, followed by the
properties established about them.

Modelling conventions.

* A question is a JSON object: an association list from property names to
  JSON values.  The type `V` of JSON values is a parameter, because the code
  only ever copies a value from one property to another.
* `fetch(...).then(response => response.json())` settles from a `Response`:
  `fetch` rejects on a network error only, `response.json()` rejects on a body
  that is not JSON, and the HTTP status is never inspected.
* The asynchronous functions are cut at their `await`.  The global state
  carries the `loadRandomQuestions` invocations suspended on their `fetch`.
  The events are a call of `getRandomQuestion` and the settlement of one
  in-flight fetch; the code that runs from a settlement up to the next
  suspension or return is one step.
* The two integers that line 51 parses out of the `year-range` element are
  inputs of each step (`YearRange`).
-/

namespace Singleplayer

/-! ## JSON objects -/

/-- A question: a JSON object, as the list of its own properties. -/
abbrev Question (V : Type) := List (String × V)

/-- `Object.prototype.hasOwnProperty.call(q, k)`. -/
def hasOwnProperty {V : Type} (q : Question V) (k : String) : Bool :=
  (q.lookup k).isSome

/-- The assignment `q[k] = v`: an existing property keeps its place and takes
the new value, a new property is added after the others. -/
def setProp {V : Type} : Question V → String → V → Question V
  | [], k, v => [(k, v)]
  | (k', v') :: rest, k, v =>
    if k == k' then (k', v) :: rest else (k', v') :: setProp rest k v

/-! ## Responses -/

/-- The ways the promise chain of a `fetch` rejects. -/
inductive FetchError where
  | network
  | malformedJSON
  deriving DecidableEq, Repr

/-- The body of an HTTP response, read by `response.json()`. -/
inductive Body (β : Type) where
  | malformed
  | json (data : β)
  deriving DecidableEq, Repr

/-- What a `fetch` settles from: no response at all, or an HTTP response with
its status code and body. -/
inductive Response (β : Type) where
  | networkError
  | http (status : Nat) (body : Body β)
  deriving DecidableEq, Repr

/-- The chain `fetch(...).then(response => response.json())`. -/
def fetchJson {β : Type} : Response β → Except FetchError β
  | .networkError => .error .network
  | .http _ .malformed => .error .malformedJSON
  | .http _ (.json data) => .ok data

/-! ## Packet lookups (lines 26-47 and 106-113) -/

/-- The JSON object answered by the packet endpoints; a field that is absent
reads as `undefined` (`none`). -/
structure PacketData (V : Type) where
  tossups : Option (List (Question V))
  bonuses : Option (List (Question V))
  deriving DecidableEq, Repr

/-- An asynchronous function with at most one `await fetch`: it either returns
without a request, or issues a GET for `url` and finishes from the response. -/
inductive Async (β α : Type) where
  | done (value : α)
  | awaitFetch (url : String) (k : Response β → Except FetchError α)

/-- The requests an asynchronous function issues. -/
def Async.requests {β α : Type} : Async β α → List String
  | .done _ => []
  | .awaitFetch url _ => [url]

/-- What the returned promise settles to, given the response to the request
(unused when no request is issued). -/
def Async.settle {β α : Type} : Async β α → Response β → Except FetchError α
  | .done value, _ => .ok value
  | .awaitFetch _ k, resp => k resp

/-- Lines 26-34; `enc` is `encodeURIComponent`. -/
def getBonuses {V : Type} (enc : String → String) (setName packetNumber : String) :
    Async (PacketData V) (Option (List (Question V))) :=
  if setName = "" then
    .done (some [])
  else
    .awaitFetch
      ("/api/packet-bonuses?&setName=" ++ enc setName ++ "&packetNumber=" ++ enc packetNumber)
      (fun response => (fetchJson response).map (fun data => data.bonuses))

/-- Lines 42-47. -/
def getPacket {V : Type} (enc : String → String) (setName packetNumber : String) :
    Async (PacketData V) (PacketData V) :=
  if setName = "" then
    .done { tossups := some [], bonuses := some [] }
  else
    .awaitFetch
      ("/api/packet?&setName=" ++ enc setName ++ "&packetNumber=" ++ enc packetNumber)
      (fun response => fetchJson response)

/-- Lines 106-113. -/
def getTossups {V : Type} (enc : String → String) (setName packetNumber : String) :
    Async (PacketData V) (Option (List (Question V))) :=
  if setName = "" then
    .done (some [])
  else
    .awaitFetch
      ("/api/packet-tossups?&setName=" ++ enc setName ++ "&packetNumber=" ++ enc packetNumber)
      (fun response => (fetchJson response).map (fun data => data.tossups))

/-! ## Normalization (lines 68-82) -/

/-- The body of the loop of lines 70-73 for one question: the test of line 71
and the read of line 72 are one lookup of the property. -/
def normalizeTossup {V : Type} (q : Question V) : Question V :=
  match q.lookup "formatted_answer" with
  | some v => setProp q "answer" v
  | none => q

/-- The body of the loop of lines 75-78 for one question: the test of line 76
and the read of line 77 are one lookup of the property. -/
def normalizeBonus {V : Type} (q : Question V) : Question V :=
  match q.lookup "formatted_answers" with
  | some v => setProp q "answers" v
  | none => q

/-- The callback of lines 68-82.  The questions of a parsed batch are distinct
objects, so each loop is a map over the batch. -/
def normalizeQuestions {V : Type} (questionType : String) (questions : List (Question V)) :
    List (Question V) :=
  if questionType = "tossup" then
    questions.map normalizeTossup
  else if questionType = "bonus" then
    questions.map normalizeBonus
  else
    questions

/-- What the callback of lines 68-82 does to one question of the batch. -/
def normalizeQuestion {V : Type} (questionType : String) (q : Question V) : Question V :=
  if questionType = "tossup" then normalizeTossup q
  else if questionType = "bonus" then normalizeBonus q
  else q

/-! ## The buffer (lines 7 and 50-99) -/

/-- The arguments of `getRandomQuestion` and `loadRandomQuestions`. -/
structure CallArgs where
  questionType : String
  difficulties : List String
  categories : List String
  subcategories : List String
  deriving DecidableEq, Repr

/-- The pair `[minYear, maxYear]` of line 51; `none` is a missing or
non-numeric part. -/
structure YearRange where
  minYear : Option Int
  maxYear : Option Int
  deriving DecidableEq, Repr

/-- The JSON body of the POST of lines 53-66. -/
structure RequestBody where
  questionType : String
  difficulties : List String
  categories : List String
  subcategories : List String
  number : Nat
  minYear : Option Int
  maxYear : Option Int
  deriving DecidableEq, Repr

/-- The body built on lines 58-66. -/
def requestBody (a : CallArgs) (dom : YearRange) : RequestBody :=
  { questionType := a.questionType
    difficulties := a.difficulties
    categories := a.categories
    subcategories := a.subcategories
    number := 20
    minYear := dom.minYear
    maxYear := dom.maxYear }

/-- A `loadRandomQuestions` invocation suspended on its `fetch`: the request it
sent, and the `getRandomQuestion` call (number and arguments) suspended on it
at line 88, or `none` for the invocation of line 95, which nobody awaits. -/
structure Load where
  body : RequestBody
  awaiter : Option (Nat × CallArgs)
  deriving DecidableEq, Repr

/-- One request as it is logged: its body, and the content of
`randomQuestions` at the moment it was sent. -/
structure LogEntry (V : Type) where
  body : RequestBody
  bufferAtIssue : List (Question V)
  deriving DecidableEq, Repr

/-- How the promise of a `getRandomQuestion` call settles; `pop` on an empty
array gives `undefined` (`none`). -/
inductive Settlement (V : Type) where
  | fulfilled (value : Option (Question V))
  | rejected (error : FetchError)
  deriving DecidableEq, Repr

/-- The global state: the buffer, the suspended `loadRandomQuestions`
invocations, the log of the requests sent to `/api/random-question`, the number
of `getRandomQuestion` calls made, and the calls that have settled. -/
structure State (V : Type) where
  randomQuestions : List (Question V)
  inflight : List Load
  log : List (LogEntry V)
  calls : Nat
  settled : List (Nat × Settlement V)
  deriving DecidableEq, Repr

/-- The state at page load (line 7). -/
def initial (V : Type) : State V :=
  { randomQuestions := [], inflight := [], log := [], calls := 0, settled := [] }

/-- Lines 50-66: `loadRandomQuestions` up to its `await`.  The request is sent
and the invocation is suspended. -/
def loadRandomQuestions {V : Type} (s : State V) (a : CallArgs) (dom : YearRange)
    (awaiter : Option (Nat × CallArgs)) : State V :=
  { s with
    inflight := s.inflight ++ [{ body := requestBody a dom, awaiter := awaiter }]
    log := s.log ++ [{ body := requestBody a dom, bufferAtIssue := s.randomQuestions }] }

/-- Lines 91-98: the rest of `getRandomQuestion` after the cold-start test. -/
def popAndRefill {V : Type} (s : State V) (a : CallArgs) (dom : YearRange) :
    State V × Option (Question V) :=
  let randomQuestion := s.randomQuestions.getLast?
  let s1 := { s with randomQuestions := s.randomQuestions.dropLast }
  if s1.randomQuestions.length = 0 then
    (loadRandomQuestions s1 a dom none, randomQuestion)
  else
    (s1, randomQuestion)

/-- The call `getRandomQuestion(questionType, difficulties, categories,
subcategories)` (lines 86-99), run until it returns or suspends at line 88. -/
def getRandomQuestion {V : Type} (s : State V) (a : CallArgs) (dom : YearRange) : State V :=
  let s0 := { s with calls := s.calls + 1 }
  if s.randomQuestions.length = 0 then
    loadRandomQuestions s0 a dom (some (s.calls, a))
  else
    let r := popAndRefill s0 a dom
    { r.1 with settled := r.1.settled ++ [(s.calls, .fulfilled r.2)] }

/-- The `i`-th in-flight fetch settles with `resp`.  On a rejection the
assignment of line 53 never happens; the awaiting call, if any, is rejected,
and a rejection nobody awaits is lost.  Otherwise line 53 stores the normalized
batch, and the awaiting call, if any, resumes at line 91. -/
def settle {V : Type} (s : State V) (i : Nat) (resp : Response (List (Question V)))
    (dom : YearRange) : State V :=
  match s.inflight[i]? with
  | none => s
  | some load =>
    let s0 := { s with inflight := s.inflight.eraseIdx i }
    match fetchJson resp with
    | .error e =>
      match load.awaiter with
      | none => s0
      | some (c, _) => { s0 with settled := s0.settled ++ [(c, .rejected e)] }
    | .ok questions =>
      let s1 := { s0 with
        randomQuestions := normalizeQuestions load.body.questionType questions }
      match load.awaiter with
      | none => s1
      | some (c, a) =>
        let r := popAndRefill s1 a dom
        { r.1 with settled := r.1.settled ++ [(c, .fulfilled r.2)] }

/-- The events of the page. -/
inductive Event (V : Type) where
  | call (a : CallArgs) (dom : YearRange)
  | settle (i : Nat) (resp : Response (List (Question V))) (dom : YearRange)
  deriving DecidableEq, Repr

/-- One event. -/
def step {V : Type} (s : State V) : Event V → State V
  | .call a dom => getRandomQuestion s a dom
  | .settle i resp dom => settle s i resp dom

/-- A sequence of events, in order. -/
def run {V : Type} (s : State V) : List (Event V) → State V
  | [] => s
  | e :: es => run (step s e) es

/-- Consecutive calls of `getRandomQuestion`, with no settlement in between. -/
def runCalls {V : Type} (s : State V) : List (CallArgs × YearRange) → State V
  | [] => s
  | c :: cs => runCalls (getRandomQuestion s c.1 c.2) cs

/-- The server answers every settled request with questions that match the
filters of that request (`matchesFilters`), along the events `es` from `s`. -/
def honest {V : Type} (matchesFilters : RequestBody → Question V → Bool) (s : State V) :
    List (Event V) → Bool
  | [] => true
  | .call a dom :: es => honest matchesFilters (getRandomQuestion s a dom) es
  | .settle i resp dom :: es =>
    (match s.inflight[i]?, fetchJson resp with
      | some load, .ok questions => questions.all (matchesFilters load.body)
      | _, _ => true)
    && honest matchesFilters (settle s i resp dom) es

/-- At most one fetch is in flight in every state along the events `es` from
`s`. -/
def singleFlight {V : Type} (s : State V) : List (Event V) → Bool
  | [] => decide (s.inflight.length ≤ 1)
  | e :: es => decide (s.inflight.length ≤ 1) && singleFlight (step s e) es

/-- The filters an event passes: those of a call, and the year range read when
a settlement resumes a call. -/
def Event.yearRange {V : Type} : Event V → YearRange
  | .call _ dom => dom
  | .settle _ _ dom => dom

/-! ## Sample data -/

/-- A call for tossups. -/
def sampleArgs : CallArgs :=
  { questionType := "tossup", difficulties := ["3"], categories := ["Science"],
    subcategories := [] }

/-- A call for bonuses. -/
def sampleBonusArgs : CallArgs :=
  { questionType := "bonus", difficulties := ["3"], categories := ["History"],
    subcategories := [] }

/-- A content of the `year-range` element. -/
def sampleYears : YearRange := { minYear := some 2010, maxYear := some 2023 }

/-- A tossup with a formatted answer. -/
def sampleTossup1 : Question String :=
  [("type", "tossup"), ("answer", "Paris"), ("formatted_answer", "<b>Paris</b>")]

/-- A tossup without a formatted answer. -/
def sampleTossup2 : Question String :=
  [("type", "tossup"), ("answer", "Rome")]

/-- Another tossup with a formatted answer. -/
def sampleTossup3 : Question String :=
  [("type", "tossup"), ("answer", "Oslo"), ("formatted_answer", "<u>Oslo</u>")]

/-- A bonus with formatted answers. -/
def sampleBonus1 : Question String :=
  [("type", "bonus"), ("answers", "Bern"), ("formatted_answers", "<b>Bern</b>")]

/-- Another bonus. -/
def sampleBonus2 : Question String :=
  [("type", "bonus"), ("answers", "Lima")]

/-- A filter test that reads the `type` property of a question. -/
def sampleMatches (body : RequestBody) (q : Question String) : Bool :=
  q.lookup "type" == some body.questionType

/-- The state after a cold start that fetched `sampleTossup1, sampleTossup2`:
the call has returned the second and the first is buffered. -/
def sampleWarm : State String :=
  settle (getRandomQuestion (initial String) sampleArgs sampleYears) 0
    (.http 200 (.json [sampleTossup1, sampleTossup2])) sampleYears

/-- The state after a cold start that fetched four questions: the call has
returned the fourth and three are buffered. -/
def sampleFull : State String :=
  settle (getRandomQuestion (initial String) sampleArgs sampleYears) 0
    (.http 200 (.json [sampleTossup1, sampleTossup2, sampleTossup3, sampleTossup2])) sampleYears

/-- The refill race: a cold start whose batch is a single question returns it
and leaves a refill in flight; a second call finds the buffer empty and sends
a second, awaited, request; the refill then stores two questions. -/
def raceEvents : List (Event String) :=
  [ .call sampleArgs sampleYears,
    .settle 0 (.http 200 (.json [sampleTossup2])) sampleYears,
    .call sampleBonusArgs sampleYears,
    .settle 0 (.http 200 (.json [sampleTossup1, sampleTossup3])) sampleYears ]

/-- A change of filters: a cold start for tossups fetches three questions, and
the next call asks for bonuses. -/
def filterEvents : List (Event String) :=
  [ .call sampleArgs sampleYears,
    .settle 0 (.http 200 (.json [sampleTossup1, sampleTossup2, sampleTossup3])) sampleYears,
    .call sampleBonusArgs sampleYears ]

/-- The question `x`, as stored, is a question matching the filters of a
request of the log: the server answered `q` to the request `entry`, `q` passes
the filter test of that request, and `x` is `q` after the normalization of
lines 68-82. -/
def servedFor {V : Type} (matchesFilters : RequestBody → Question V → Bool)
    (log : List (LogEntry V)) (x : Question V) : Prop :=
  ∃ entry ∈ log, ∃ q, matchesFilters entry.body q = true
    ∧ x = normalizeQuestion entry.body.questionType q

/-- The question `x`, as stored, was served for the request `entry`: some
question `q` passes the filter test of that request, and `x` is `q` after the
normalization of lines 68-82. -/
def servedBy {V : Type} (matchesFilters : RequestBody → Question V → Bool)
    (entry : LogEntry V) (x : Question V) : Prop :=
  ∃ q, matchesFilters entry.body q = true
    ∧ x = normalizeQuestion entry.body.questionType q

/-- The buffer is empty, or all its questions were served for one and the same
request of the log. -/
def BatchInv {V : Type} (matchesFilters : RequestBody → Question V → Bool) (s : State V) :
    Prop :=
  s.randomQuestions = []
  ∨ ∃ entry ∈ s.log, ∀ x ∈ s.randomQuestions, servedBy matchesFilters entry x

/-- A refill answered with status 500 and a JSON batch, from `sampleWarm`: the
call that empties the buffer, then the settlement of its refill. -/
def sampleRefill500 : State String :=
  settle (getRandomQuestion sampleWarm sampleArgs sampleYears) 0
    (.http 500 (.json [sampleTossup1, sampleTossup3])) sampleYears

/-- The invariant behind the filter property: the buffered questions and the
questions returned so far were served for requests of the log, and every
in-flight fetch has its request in the log. -/
def FilterInv {V : Type} (matchesFilters : RequestBody → Question V → Bool) (s : State V) :
    Prop :=
  (∀ x ∈ s.randomQuestions, servedFor matchesFilters s.log x)
  ∧ (∀ load ∈ s.inflight, ∃ entry ∈ s.log, entry.body = load.body)
  ∧ (∀ c x, (c, Settlement.fulfilled (some x)) ∈ s.settled → servedFor matchesFilters s.log x)

/-- The invariant of a page whose calls all pass the arguments `a0` while the
year range stays `d0`: every request of the log carries these filters. -/
def SameFiltersInv {V : Type} (a0 : CallArgs) (d0 : YearRange) (s : State V) : Prop :=
  (∀ entry ∈ s.log, entry.body = requestBody a0 d0)
  ∧ (∀ load ∈ s.inflight, ∀ c a, load.awaiter = some (c, a) → a = a0)

/-! ## Properties of JSON objects and of the normalization -/

theorem lookup_setProp_self {V : Type} (q : Question V) (k : String) (v : V) :
    (setProp q k v).lookup k = some v := by
  induction q with
  | nil => simp [setProp, List.lookup]
  | cons p rest ih =>
    obtain ⟨k', v'⟩ := p
    by_cases h : k = k'
    · subst h
      simp [setProp, List.lookup]
    · have hb : (k == k') = false := by simpa using h
      simp [setProp, List.lookup, hb, ih]

theorem lookup_setProp_of_ne {V : Type} (q : Question V) (k j : String) (v : V) (h : j ≠ k) :
    (setProp q k v).lookup j = q.lookup j := by
  induction q with
  | nil =>
    have hb : (j == k) = false := by simpa using h
    simp [setProp, List.lookup, hb]
  | cons p rest ih =>
    obtain ⟨k', v'⟩ := p
    by_cases hk : k = k'
    · subst hk
      have hb : (j == k) = false := by simpa using h
      simp [setProp, List.lookup, hb]
    · have hb : (k == k') = false := by simpa using hk
      by_cases hj : j = k'
      · subst hj
        simp [setProp, List.lookup, hb]
      · have hb2 : (j == k') = false := by simpa using hj
        simp [setProp, List.lookup, hb, hb2, ih]

theorem setProp_setProp {V : Type} (q : Question V) (k : String) (v : V) :
    setProp (setProp q k v) k v = setProp q k v := by
  induction q with
  | nil => simp [setProp]
  | cons p rest ih =>
    obtain ⟨k', v'⟩ := p
    by_cases hk : k = k'
    · subst hk
      simp [setProp]
    · have hb : (k == k') = false := by simpa using hk
      simp [setProp, hb, ih]

theorem normalizeTossup_idem {V : Type} (q : Question V) :
    normalizeTossup (normalizeTossup q) = normalizeTossup q := by
  unfold normalizeTossup
  cases h : q.lookup "formatted_answer" with
  | none => simp [h]
  | some v =>
    have h2 : (setProp q "answer" v).lookup "formatted_answer" = some v := by
      rw [lookup_setProp_of_ne q "answer" "formatted_answer" v (by decide)]
      exact h
    simp [h2, setProp_setProp]

theorem normalizeBonus_idem {V : Type} (q : Question V) :
    normalizeBonus (normalizeBonus q) = normalizeBonus q := by
  unfold normalizeBonus
  cases h : q.lookup "formatted_answers" with
  | none => simp [h]
  | some v =>
    have h2 : (setProp q "answers" v).lookup "formatted_answers" = some v := by
      rw [lookup_setProp_of_ne q "answers" "formatted_answers" v (by decide)]
      exact h
    simp [h2, setProp_setProp]

theorem normalizeQuestions_eq_map {V : Type} (questionType : String)
    (questions : List (Question V)) :
    normalizeQuestions questionType questions
      = questions.map (normalizeQuestion questionType) := by
  unfold normalizeQuestions normalizeQuestion
  by_cases h1 : questionType = "tossup"
  · simp [h1]
  · by_cases h2 : questionType = "bonus"
    · simp [h1, h2]
    · simp [h1, h2]

theorem normalizeQuestion_idem {V : Type} (questionType : String) (q : Question V) :
    normalizeQuestion questionType (normalizeQuestion questionType q)
      = normalizeQuestion questionType q := by
  unfold normalizeQuestion
  by_cases h1 : questionType = "tossup"
  · simp [h1, normalizeTossup_idem]
  · by_cases h2 : questionType = "bonus"
    · simp [h1, h2, normalizeBonus_idem]
    · simp [h1, h2]

/-! ## Single steps of the buffer -/

theorem getRandomQuestion_cold {V : Type} (s : State V) (a : CallArgs) (dom : YearRange)
    (h : s.randomQuestions = []) :
    getRandomQuestion s a dom =
      { randomQuestions := []
        inflight := s.inflight ++ [{ body := requestBody a dom, awaiter := some (s.calls, a) }]
        log := s.log ++ [{ body := requestBody a dom, bufferAtIssue := [] }]
        calls := s.calls + 1
        settled := s.settled } := by
  simp [getRandomQuestion, loadRandomQuestions, h]

theorem getRandomQuestion_last {V : Type} (s : State V) (a : CallArgs) (dom : YearRange)
    (x : Question V) (h : s.randomQuestions = [x]) :
    getRandomQuestion s a dom =
      { randomQuestions := []
        inflight := s.inflight ++ [{ body := requestBody a dom, awaiter := none }]
        log := s.log ++ [{ body := requestBody a dom, bufferAtIssue := [] }]
        calls := s.calls + 1
        settled := s.settled ++ [(s.calls, .fulfilled (some x))] } := by
  simp [getRandomQuestion, popAndRefill, loadRandomQuestions, h]

theorem getRandomQuestion_more {V : Type} (s : State V) (a : CallArgs) (dom : YearRange)
    (xs : List (Question V)) (x : Question V) (h : s.randomQuestions = xs ++ [x])
    (hxs : xs ≠ []) :
    getRandomQuestion s a dom =
      { randomQuestions := xs
        inflight := s.inflight
        log := s.log
        calls := s.calls + 1
        settled := s.settled ++ [(s.calls, .fulfilled (some x))] } := by
  simp [getRandomQuestion, popAndRefill, loadRandomQuestions, h, hxs]

theorem settle_rejected_awaited {V : Type} (s : State V) (i : Nat)
    (resp : Response (List (Question V))) (dom : YearRange) (body : RequestBody) (c : Nat)
    (a : CallArgs) (e : FetchError)
    (hload : s.inflight[i]? = some { body := body, awaiter := some (c, a) })
    (hresp : fetchJson resp = .error e) :
    settle s i resp dom =
      { s with
        inflight := s.inflight.eraseIdx i
        settled := s.settled ++ [(c, .rejected e)] } := by
  simp [settle, hload, hresp]

theorem settle_rejected_background {V : Type} (s : State V) (i : Nat)
    (resp : Response (List (Question V))) (dom : YearRange) (body : RequestBody)
    (e : FetchError)
    (hload : s.inflight[i]? = some { body := body, awaiter := none })
    (hresp : fetchJson resp = .error e) :
    settle s i resp dom = { s with inflight := s.inflight.eraseIdx i } := by
  simp [settle, hload, hresp]

theorem settle_ok_background {V : Type} (s : State V) (i : Nat)
    (resp : Response (List (Question V))) (dom : YearRange) (body : RequestBody)
    (questions : List (Question V))
    (hload : s.inflight[i]? = some { body := body, awaiter := none })
    (hresp : fetchJson resp = .ok questions) :
    settle s i resp dom =
      { s with
        inflight := s.inflight.eraseIdx i
        randomQuestions := normalizeQuestions body.questionType questions } := by
  simp [settle, hload, hresp]

theorem settle_ok_awaited {V : Type} (s : State V) (i : Nat)
    (resp : Response (List (Question V))) (dom : YearRange) (body : RequestBody) (c : Nat)
    (a : CallArgs) (questions : List (Question V))
    (hload : s.inflight[i]? = some { body := body, awaiter := some (c, a) })
    (hresp : fetchJson resp = .ok questions) :
    settle s i resp dom =
      { randomQuestions := (normalizeQuestions body.questionType questions).dropLast
        inflight :=
          if (normalizeQuestions body.questionType questions).dropLast.length = 0 then
            s.inflight.eraseIdx i ++ [{ body := requestBody a dom, awaiter := none }]
          else s.inflight.eraseIdx i
        log :=
          if (normalizeQuestions body.questionType questions).dropLast.length = 0 then
            s.log ++ [{ body := requestBody a dom, bufferAtIssue := [] }]
          else s.log
        calls := s.calls
        settled := s.settled ++
          [(c, .fulfilled (normalizeQuestions body.questionType questions).getLast?)] } := by
  simp only [settle, hload, hresp, popAndRefill, loadRandomQuestions]
  generalize normalizeQuestions body.questionType questions = qs
  by_cases hq : qs.dropLast = []
  · simp [hq]
  · have hlen : ¬ qs.dropLast.length = 0 := fun h => hq (List.length_eq_zero.mp h)
    simp only [hlen, if_false]

theorem normalizeQuestions_length {V : Type} (questionType : String)
    (questions : List (Question V)) :
    (normalizeQuestions questionType questions).length = questions.length := by
  simp [normalizeQuestions_eq_map]

theorem eraseIdx_append_singleton {α : Type} (l : List α) (x : α) :
    (l ++ [x]).eraseIdx l.length = l := by
  induction l with
  | nil => rfl
  | cons y ys ih => simp [List.eraseIdx, ih]

theorem getElem?_append_singleton {α : Type} (l : List α) (x : α) :
    (l ++ [x])[l.length]? = some x := by
  simp

/-! ## Packet lookups -/

/-- C6: for every packet number, `getTossups`, `getBonuses` and `getPacket`
called with the empty set name return `[]`, `[]` and `{tossups: [], bonuses: []}`
without issuing any request, and called with a non-empty set name each of them
issues exactly one request. -/
theorem empty_setName_short_circuit {V : Type} (enc : String → String)
    (setName packetNumber : String) (hne : setName ≠ "") :
    (getTossups enc "" packetNumber : Async (PacketData V) _) = .done (some [])
    ∧ (getBonuses enc "" packetNumber : Async (PacketData V) _) = .done (some [])
    ∧ (getPacket enc "" packetNumber : Async (PacketData V) _)
        = .done { tossups := some [], bonuses := some [] }
    ∧ (getTossups enc "" packetNumber : Async (PacketData V) _).requests = []
    ∧ (getBonuses enc "" packetNumber : Async (PacketData V) _).requests = []
    ∧ (getPacket enc "" packetNumber : Async (PacketData V) _).requests = []
    ∧ (getTossups enc setName packetNumber : Async (PacketData V) _).requests.length = 1
    ∧ (getBonuses enc setName packetNumber : Async (PacketData V) _).requests.length = 1
    ∧ (getPacket enc setName packetNumber : Async (PacketData V) _).requests.length = 1 := by
  simp [getTossups, getBonuses, getPacket, Async.requests, hne]

theorem empty_setName_short_circuit_witness :
    "2021 ACF Fall" ≠ ""
    ∧ (getTossups id "" "3" : Async (PacketData String) _).requests = []
    ∧ (getTossups id "2021 ACF Fall" "3" : Async (PacketData String) _).requests.length = 1
    ∧ (getBonuses id "2021 ACF Fall" "3" : Async (PacketData String) _).requests.length = 1
    ∧ (getPacket id "2021 ACF Fall" "3" : Async (PacketData String) _).requests.length = 1 :=
  have h := empty_setName_short_circuit (V := String) id "2021 ACF Fall" "3" (by decide)
  ⟨by decide, h.2.2.2.1, h.2.2.2.2.2.2.1, h.2.2.2.2.2.2.2.1, h.2.2.2.2.2.2.2.2⟩

/-! ## Normalization -/

/-- C10: the normalization step keeps the number and the order of the
questions, leaves a question without the relevant formatted field unchanged,
changes no field other than `answer` (for `'tossup'`) or `answers` (for
`'bonus'`), is the identity for any other question type, and is idempotent. -/
theorem normalization_frame {V : Type} (questionType : String)
    (questions : List (Question V)) :
    (normalizeQuestions questionType questions).length = questions.length
    ∧ (∀ i : Nat, (normalizeQuestions questionType questions)[i]?
          = questions[i]?.map (normalizeQuestion questionType))
    ∧ (∀ q : Question V, hasOwnProperty q "formatted_answer" = false →
          normalizeQuestion "tossup" q = q)
    ∧ (∀ q : Question V, hasOwnProperty q "formatted_answers" = false →
          normalizeQuestion "bonus" q = q)
    ∧ (∀ (q : Question V) (k : String), k ≠ "answer" →
          (normalizeQuestion "tossup" q).lookup k = q.lookup k)
    ∧ (∀ (q : Question V) (k : String), k ≠ "answers" →
          (normalizeQuestion "bonus" q).lookup k = q.lookup k)
    ∧ (questionType ≠ "tossup" → questionType ≠ "bonus" →
          normalizeQuestions questionType questions = questions)
    ∧ normalizeQuestions questionType (normalizeQuestions questionType questions)
        = normalizeQuestions questionType questions := by
  refine ⟨normalizeQuestions_length _ _, ?_, ?_, ?_, ?_, ?_, ?_, ?_⟩
  · intro i
    rw [normalizeQuestions_eq_map, List.getElem?_map]
  · intro q hq
    have h : q.lookup "formatted_answer" = none := by
      simpa [hasOwnProperty] using hq
    simp [normalizeQuestion, normalizeTossup, h]
  · intro q hq
    have h : q.lookup "formatted_answers" = none := by
      simpa [hasOwnProperty] using hq
    simp [normalizeQuestion, normalizeBonus, h]
  · intro q k hk
    simp only [normalizeQuestion, normalizeTossup, if_true]
    cases h : q.lookup "formatted_answer" with
    | none => rfl
    | some v => exact lookup_setProp_of_ne q "answer" k v hk
  · intro q k hk
    have hb : ¬ ("bonus" = "tossup") := by decide
    simp only [normalizeQuestion, normalizeBonus, hb, if_false, if_true]
    cases h : q.lookup "formatted_answers" with
    | none => rfl
    | some v => exact lookup_setProp_of_ne q "answers" k v hk
  · intro h1 h2
    simp [normalizeQuestions, h1, h2]
  · rw [normalizeQuestions_eq_map, normalizeQuestions_eq_map, List.map_map]
    apply List.map_congr_left
    intro q _
    exact normalizeQuestion_idem questionType q

/-- C3: when a fetch settles with a batch, what line 53 stores is the
normalized batch: for question type `'tossup'` every item whose
`formatted_answer` is `X` is stored with `answer = X`, for `'bonus'` every item
whose `formatted_answers` is `L` is stored with `answers = L`.  A fetch nobody
awaits leaves exactly the stored batch in `randomQuestions`; an awaited one
hands the last stored item to its caller and leaves the others, so every item
a call can return has gone through the normalization. -/
theorem normalization_before_visible {V : Type} (s : State V) (i : Nat) (load : Load)
    (status : Nat) (batch : List (Question V)) (dom : YearRange)
    (hload : s.inflight[i]? = some load) :
    (match load.awaiter with
      | none =>
        (settle s i (.http status (.json batch)) dom).randomQuestions
            = normalizeQuestions load.body.questionType batch
        ∧ (settle s i (.http status (.json batch)) dom).settled = s.settled
      | some (c, _) =>
        (settle s i (.http status (.json batch)) dom).randomQuestions
            = (normalizeQuestions load.body.questionType batch).dropLast
        ∧ (settle s i (.http status (.json batch)) dom).settled
            = s.settled ++
              [(c, .fulfilled (normalizeQuestions load.body.questionType batch).getLast?)])
    ∧ (normalizeQuestions load.body.questionType batch).length = batch.length
    ∧ (load.body.questionType = "tossup" →
        ∀ (j : Nat) (q : Question V) (X : V), batch[j]? = some q →
          q.lookup "formatted_answer" = some X →
          ∃ q', (normalizeQuestions load.body.questionType batch)[j]? = some q'
            ∧ q'.lookup "answer" = some X)
    ∧ (load.body.questionType = "bonus" →
        ∀ (j : Nat) (q : Question V) (L : V), batch[j]? = some q →
          q.lookup "formatted_answers" = some L →
          ∃ q', (normalizeQuestions load.body.questionType batch)[j]? = some q'
            ∧ q'.lookup "answers" = some L) := by
  obtain ⟨body, awaiter⟩ := load
  refine ⟨?_, normalizeQuestions_length _ _, ?_, ?_⟩
  · cases awaiter with
    | none =>
      rw [settle_ok_background s i (.http status (.json batch)) dom body batch hload rfl]
      exact ⟨rfl, rfl⟩
    | some p =>
      obtain ⟨c, a⟩ := p
      rw [settle_ok_awaited s i (.http status (.json batch)) dom body c a batch hload rfl]
      exact ⟨rfl, rfl⟩
  · intro ht j q X hq hX
    refine ⟨normalizeTossup q, ?_, ?_⟩
    · show (normalizeQuestions body.questionType batch)[j]? = _
      rw [ht]
      simp [normalizeQuestions, List.getElem?_map, hq]
    · simp only [normalizeTossup, hX]
      exact lookup_setProp_self q "answer" X
  · intro hb j q L hq hL
    refine ⟨normalizeBonus q, ?_, ?_⟩
    · show (normalizeQuestions body.questionType batch)[j]? = _
      rw [hb]
      simp [normalizeQuestions, List.getElem?_map, hq]
    · simp only [normalizeBonus, hL]
      exact lookup_setProp_self q "answers" L

/-! ## Cold start -/

theorem cold_start_inflight {V : Type} (s : State V) (a : CallArgs) (dom : YearRange)
    (h : s.randomQuestions = []) :
    (getRandomQuestion s a dom).inflight[s.inflight.length]?
      = some { body := requestBody a dom, awaiter := some (s.calls, a) } := by
  rw [getRandomQuestion_cold s a dom h]
  exact getElem?_append_singleton _ _

theorem cold_start_fulfilled {V : Type} (s : State V) (a : CallArgs) (dom dom' : YearRange)
    (status : Nat) (ys : List (Question V)) (y : Question V)
    (h : s.randomQuestions = []) :
    settle (getRandomQuestion s a dom) s.inflight.length (.http status (.json (ys ++ [y]))) dom' =
      { randomQuestions := ys.map (normalizeQuestion a.questionType)
        inflight :=
          if ys.length = 0 then s.inflight ++ [{ body := requestBody a dom', awaiter := none }]
          else s.inflight
        log :=
          if ys.length = 0 then
            s.log ++ [{ body := requestBody a dom, bufferAtIssue := [] },
                      { body := requestBody a dom', bufferAtIssue := [] }]
          else s.log ++ [{ body := requestBody a dom, bufferAtIssue := [] }]
        calls := s.calls + 1
        settled := s.settled ++ [(s.calls, .fulfilled (some (normalizeQuestion a.questionType y)))] } := by
  rw [settle_ok_awaited _ _ (.http status (.json (ys ++ [y]))) dom' _ _ _ (ys ++ [y])
    (cold_start_inflight s a dom h) rfl]
  rw [getRandomQuestion_cold s a dom h]
  have hq : (requestBody a dom).questionType = a.questionType := rfl
  simp only [hq, normalizeQuestions_eq_map, eraseIdx_append_singleton, List.map_append,
    List.map_cons, List.map_nil, List.dropLast_concat, List.getLast?_concat,
    List.length_map]
  by_cases hys : ys.length = 0
  · simp [hys]
  · simp [hys]

theorem cold_start_rejected {V : Type} (s : State V) (a : CallArgs) (dom dom' : YearRange)
    (resp : Response (List (Question V))) (e : FetchError)
    (h : s.randomQuestions = []) (hresp : fetchJson resp = .error e) :
    settle (getRandomQuestion s a dom) s.inflight.length resp dom' =
      { randomQuestions := []
        inflight := s.inflight
        log := s.log ++ [{ body := requestBody a dom, bufferAtIssue := [] }]
        calls := s.calls + 1
        settled := s.settled ++ [(s.calls, .rejected e)] } := by
  rw [settle_rejected_awaited _ _ resp dom' _ _ _ e (cold_start_inflight s a dom h) hresp]
  rw [getRandomQuestion_cold s a dom h]
  simp [eraseIdx_append_singleton]

/-- C1 (amended): a cold-start call whose fetch returns a non-empty batch
returns (the stored form of) a member of the batch; during the call exactly one
request is issued when the batch has at least two items, and exactly two when
it has one item: the awaited one, and the refill of line 95, which nobody
awaits. -/
theorem cold_start_fetch_count {V : Type} (s : State V) (a : CallArgs) (dom dom' : YearRange)
    (status : Nat) (batch : List (Question V))
    (hempty : s.randomQuestions = []) (hne : batch ≠ []) :
    (settle (getRandomQuestion s a dom) s.inflight.length
        (.http status (.json batch)) dom').log.length
      = s.log.length + (if batch.length = 1 then 2 else 1)
    ∧ (settle (getRandomQuestion s a dom) s.inflight.length
        (.http status (.json batch)) dom').inflight
      = (if batch.length = 1 then
          s.inflight ++ [{ body := requestBody a dom', awaiter := none }]
        else s.inflight)
    ∧ ∃ q, q ∈ batch
        ∧ (settle (getRandomQuestion s a dom) s.inflight.length
            (.http status (.json batch)) dom').settled
          = s.settled ++ [(s.calls, .fulfilled (some (normalizeQuestion a.questionType q)))] := by
  obtain ⟨ys, y, rfl⟩ : ∃ ys y, batch = ys ++ [y] :=
    ⟨batch.dropLast, batch.getLast hne, (List.dropLast_append_getLast hne).symm⟩
  rw [cold_start_fulfilled s a dom dom' status ys y hempty]
  refine ⟨?_, ?_, y, by simp, rfl⟩
  · by_cases hys : ys.length = 0 <;> simp [hys]
  · by_cases hys : ys.length = 0 <;> simp [hys]

theorem cold_start_fetch_count_witness :
    (initial String).randomQuestions = []
    ∧ [sampleTossup1, sampleTossup2] ≠ []
    ∧ (settle (getRandomQuestion (initial String) sampleArgs sampleYears) 0
        (.http 200 (.json [sampleTossup1, sampleTossup2])) sampleYears).log.length = 1 :=
  ⟨rfl, by decide,
    (cold_start_fetch_count (initial String) sampleArgs sampleYears sampleYears 200
      [sampleTossup1, sampleTossup2] rfl (by decide)).1⟩

/-- C1, as stated, fails: on a cold start whose batch holds a single question
the call issues two requests. -/
theorem cold_start_single_item_two_fetches :
    (initial String).randomQuestions = []
    ∧ (initial String).log.length = 0
    ∧ (settle (getRandomQuestion (initial String) sampleArgs sampleYears) 0
        (.http 200 (.json [sampleTossup2])) sampleYears).log.length = 2
    ∧ (settle (getRandomQuestion (initial String) sampleArgs sampleYears) 0
        (.http 200 (.json [sampleTossup2])) sampleYears).settled
        = [(0, .fulfilled (some sampleTossup2))] := by
  decide

/-- C9: with `randomQuestions = xs ++ [x]` a call returns `x` and leaves `xs`;
on a cold start the call returns the last element of the fetched batch, as
line 53 stored it, and leaves the elements before it. -/
theorem getRandomQuestion_lifo {V : Type} (s s0 : State V) (a : CallArgs) (dom dom' : YearRange)
    (xs : List (Question V)) (x : Question V) (status : Nat) (ys : List (Question V))
    (y : Question V)
    (hbuf : s.randomQuestions = xs ++ [x]) (hcold : s0.randomQuestions = []) :
    (getRandomQuestion s a dom).settled = s.settled ++ [(s.calls, .fulfilled (some x))]
    ∧ (getRandomQuestion s a dom).randomQuestions = xs
    ∧ normalizeQuestions a.questionType (ys ++ [y])
        = normalizeQuestions a.questionType ys ++ [normalizeQuestion a.questionType y]
    ∧ (settle (getRandomQuestion s0 a dom) s0.inflight.length
        (.http status (.json (ys ++ [y]))) dom').settled
        = s0.settled ++ [(s0.calls, .fulfilled (some (normalizeQuestion a.questionType y)))]
    ∧ (settle (getRandomQuestion s0 a dom) s0.inflight.length
        (.http status (.json (ys ++ [y]))) dom').randomQuestions
        = normalizeQuestions a.questionType ys := by
  refine ⟨?_, ?_, ?_, ?_, ?_⟩
  · by_cases hxs : xs = []
    · subst hxs
      rw [getRandomQuestion_last s a dom x (by simpa using hbuf)]
    · rw [getRandomQuestion_more s a dom xs x hbuf hxs]
  · by_cases hxs : xs = []
    · subst hxs
      rw [getRandomQuestion_last s a dom x (by simpa using hbuf)]
    · rw [getRandomQuestion_more s a dom xs x hbuf hxs]
  · simp [normalizeQuestions_eq_map]
  · rw [cold_start_fulfilled s0 a dom dom' status ys y hcold]
  · rw [cold_start_fulfilled s0 a dom dom' status ys y hcold, normalizeQuestions_eq_map]

theorem getRandomQuestion_lifo_witness :
    sampleWarm.randomQuestions = [] ++ [normalizeTossup sampleTossup1]
    ∧ (initial String).randomQuestions = []
    ∧ (getRandomQuestion sampleWarm sampleArgs sampleYears).settled
        = sampleWarm.settled ++ [(sampleWarm.calls, .fulfilled (some (normalizeTossup sampleTossup1)))]
    ∧ (getRandomQuestion sampleWarm sampleArgs sampleYears).randomQuestions = [] :=
  have h := getRandomQuestion_lifo sampleWarm (initial String) sampleArgs sampleYears sampleYears
    [] (normalizeTossup sampleTossup1) 200 [sampleTossup2] sampleTossup3 (by decide) rfl
  ⟨by decide, rfl, h.1, h.2.1⟩

/-- C4 (amended): on a cold start, when the fetch rejects (no response: a
network error; or a body that is not JSON, whatever the status), the call is
rejected with that error after a single request, and `randomQuestions` is
still empty.  The status of the response is not inspected: a response with any
status, 2xx or not, whose body is a JSON batch fulfils the call with the last
question of the batch. -/
theorem cold_start_failure {V : Type} (s : State V) (a : CallArgs) (dom dom' : YearRange)
    (resp : Response (List (Question V))) (e : FetchError)
    (hempty : s.randomQuestions = []) (hfail : fetchJson resp = .error e) :
    ((resp = .networkError ∧ e = .network)
        ∨ (∃ status, resp = .http status .malformed ∧ e = .malformedJSON))
    ∧ (settle (getRandomQuestion s a dom) s.inflight.length resp dom').settled
        = s.settled ++ [(s.calls, .rejected e)]
    ∧ (settle (getRandomQuestion s a dom) s.inflight.length resp dom').randomQuestions = []
    ∧ (settle (getRandomQuestion s a dom) s.inflight.length resp dom').log.length
        = s.log.length + 1
    ∧ (settle (getRandomQuestion s a dom) s.inflight.length resp dom').inflight = s.inflight
    ∧ (∀ (status : Nat) (ys : List (Question V)) (y : Question V),
        (settle (getRandomQuestion s a dom) s.inflight.length
            (.http status (.json (ys ++ [y]))) dom').settled
          = s.settled ++ [(s.calls, .fulfilled (some (normalizeQuestion a.questionType y)))]) := by
  refine ⟨?_, ?_, ?_, ?_, ?_, ?_⟩
  · cases resp with
    | networkError =>
      left
      simp only [fetchJson, Except.error.injEq] at hfail
      exact ⟨rfl, hfail.symm⟩
    | http status body =>
      cases body with
      | malformed =>
        right
        simp only [fetchJson, Except.error.injEq] at hfail
        exact ⟨status, rfl, hfail.symm⟩
      | json data => simp [fetchJson] at hfail
  · rw [cold_start_rejected s a dom dom' resp e hempty hfail]
  · rw [cold_start_rejected s a dom dom' resp e hempty hfail]
  · rw [cold_start_rejected s a dom dom' resp e hempty hfail]
    simp
  · rw [cold_start_rejected s a dom dom' resp e hempty hfail]
  · intro status ys y
    rw [cold_start_fulfilled s a dom dom' status ys y hempty]

theorem cold_start_failure_witness :
    (initial String).randomQuestions = []
    ∧ fetchJson (.http 404 .malformed : Response (List (Question String)))
        = .error .malformedJSON
    ∧ (settle (getRandomQuestion (initial String) sampleArgs sampleYears) 0
        (.http 404 .malformed) sampleYears).settled = [(0, .rejected .malformedJSON)]
    ∧ (settle (getRandomQuestion (initial String) sampleArgs sampleYears) 0
        (.http 404 .malformed) sampleYears).randomQuestions = [] :=
  have h := cold_start_failure (initial String) sampleArgs sampleYears sampleYears
    (.http 404 .malformed) .malformedJSON rfl rfl
  ⟨rfl, rfl, h.2.1, h.2.2.1⟩

/-- C4, as stated, fails: a response with status 500 whose body is a JSON batch
is not a failure; the cold-start call returns a question and the rest of the
batch is buffered. -/
theorem cold_start_status_500_fulfilled :
    (initial String).randomQuestions = []
    ∧ (settle (getRandomQuestion (initial String) sampleArgs sampleYears) 0
        (.http 500 (.json [sampleTossup2, sampleTossup2])) sampleYears).settled
        = [(0, .fulfilled (some sampleTossup2))]
    ∧ (settle (getRandomQuestion (initial String) sampleArgs sampleYears) 0
        (.http 500 (.json [sampleTossup2, sampleTossup2])) sampleYears).randomQuestions
        = [sampleTossup2] := by
  decide

theorem normalization_before_visible_witness :
    (getRandomQuestion (initial String) sampleArgs sampleYears).inflight[0]?
      = some { body := requestBody sampleArgs sampleYears, awaiter := some (0, sampleArgs) }
    ∧ (normalizeQuestions "tossup" [sampleTossup1, sampleTossup2, sampleTossup3]).length = 3
    ∧ (∃ q', (normalizeQuestions "tossup" [sampleTossup1, sampleTossup2, sampleTossup3])[0]?
          = some q' ∧ q'.lookup "answer" = some "<b>Paris</b>") :=
  have h := normalization_before_visible
    (getRandomQuestion (initial String) sampleArgs sampleYears) 0
    { body := requestBody sampleArgs sampleYears, awaiter := some (0, sampleArgs) } 200
    [sampleTossup1, sampleTossup2, sampleTossup3] sampleYears (by decide)
  ⟨by decide, h.2.1, h.2.2.1 rfl 0 sampleTossup1 "<b>Paris</b>" rfl rfl⟩

/-! ## Background refill -/

theorem fetchJson_error_cases {β : Type} (resp : Response β) (e : FetchError)
    (h : fetchJson resp = .error e) :
    (resp = .networkError ∧ e = .network)
      ∨ (∃ status, resp = .http status .malformed ∧ e = .malformedJSON) := by
  cases resp with
  | networkError =>
    simp only [fetchJson, Except.error.injEq] at h
    exact Or.inl ⟨rfl, h.symm⟩
  | http status body =>
    cases body with
    | malformed =>
      simp only [fetchJson, Except.error.injEq] at h
      exact Or.inr ⟨status, rfl, h.symm⟩
    | json data => simp [fetchJson] at h

/-- C7 (amended): when the call that empties the buffer has sent its un-awaited
refill and the promise chain of that fetch rejects (no response: a network
error; or a body that is not JSON, whatever the status), the call has already
returned its question, no call is rejected, `randomQuestions` stays empty, and
the next call is a cold start: it sends a new request and awaits it.  The
status of the response is not inspected: a refill answered with any status, 2xx
or not, and a JSON batch stores the normalized batch and settles no call. -/
theorem background_refill_failure {V : Type} (s : State V) (x : Question V)
    (a a' : CallArgs) (dom dom' dom'' : YearRange) (resp : Response (List (Question V)))
    (e : FetchError)
    (hbuf : s.randomQuestions = [x]) (hfail : fetchJson resp = .error e) :
    (getRandomQuestion s a dom).settled = s.settled ++ [(s.calls, .fulfilled (some x))]
    ∧ (getRandomQuestion s a dom).inflight
        = s.inflight ++ [{ body := requestBody a dom, awaiter := none }]
    ∧ (settle (getRandomQuestion s a dom) s.inflight.length resp dom').settled
        = (getRandomQuestion s a dom).settled
    ∧ (settle (getRandomQuestion s a dom) s.inflight.length resp dom').randomQuestions = []
    ∧ (settle (getRandomQuestion s a dom) s.inflight.length resp dom').inflight = s.inflight
    ∧ (getRandomQuestion
          (settle (getRandomQuestion s a dom) s.inflight.length resp dom') a' dom'').inflight
        = s.inflight ++ [{ body := requestBody a' dom'', awaiter := some (s.calls + 1, a') }]
    ∧ (getRandomQuestion
          (settle (getRandomQuestion s a dom) s.inflight.length resp dom') a' dom'').log
        = (settle (getRandomQuestion s a dom) s.inflight.length resp dom').log
          ++ [{ body := requestBody a' dom'', bufferAtIssue := [] }]
    ∧ (getRandomQuestion
          (settle (getRandomQuestion s a dom) s.inflight.length resp dom') a' dom'').settled
        = (getRandomQuestion s a dom).settled
    ∧ ((resp = .networkError ∧ e = .network)
        ∨ (∃ status, resp = .http status .malformed ∧ e = .malformedJSON))
    ∧ (∀ (status : Nat) (batch : List (Question V)),
        (settle (getRandomQuestion s a dom) s.inflight.length
            (.http status (.json batch)) dom').randomQuestions
          = normalizeQuestions a.questionType batch
        ∧ (settle (getRandomQuestion s a dom) s.inflight.length
            (.http status (.json batch)) dom').settled
          = (getRandomQuestion s a dom).settled) := by
  have h1 := getRandomQuestion_last s a dom x hbuf
  have hload : (getRandomQuestion s a dom).inflight[s.inflight.length]?
      = some { body := requestBody a dom, awaiter := none } := by
    rw [h1]
    exact getElem?_append_singleton _ _
  have h2 := settle_rejected_background (getRandomQuestion s a dom) s.inflight.length resp dom'
    (requestBody a dom) e hload hfail
  have h2' : settle (getRandomQuestion s a dom) s.inflight.length resp dom' =
      { randomQuestions := []
        inflight := s.inflight
        log := s.log ++ [{ body := requestBody a dom, bufferAtIssue := [] }]
        calls := s.calls + 1
        settled := s.settled ++ [(s.calls, .fulfilled (some x))] } := by
    rw [h2, h1]
    simp [eraseIdx_append_singleton]
  have h3 := getRandomQuestion_cold
    (settle (getRandomQuestion s a dom) s.inflight.length resp dom') a' dom''
    (by rw [h2'])
  have hstored : ∀ (status : Nat) (batch : List (Question V)),
      (settle (getRandomQuestion s a dom) s.inflight.length
          (.http status (.json batch)) dom').randomQuestions
        = normalizeQuestions a.questionType batch
      ∧ (settle (getRandomQuestion s a dom) s.inflight.length
          (.http status (.json batch)) dom').settled
        = (getRandomQuestion s a dom).settled := by
    intro status batch
    rw [settle_ok_background (getRandomQuestion s a dom) s.inflight.length
      (.http status (.json batch)) dom' (requestBody a dom) batch hload rfl]
    exact ⟨rfl, rfl⟩
  refine ⟨?_, ?_, ?_, ?_, ?_, ?_, ?_, ?_, fetchJson_error_cases resp e hfail, hstored⟩
  · rw [h1]
  · rw [h1]
  · rw [h2', h1]
  · rw [h2']
  · rw [h2']
  · rw [h3, h2']
  · rw [h3, h2']
  · rw [h3, h2', h1]

theorem background_refill_failure_witness :
    sampleWarm.randomQuestions = [normalizeTossup sampleTossup1]
    ∧ fetchJson (.networkError : Response (List (Question String))) = .error .network
    ∧ (settle (getRandomQuestion sampleWarm sampleArgs sampleYears) sampleWarm.inflight.length
        .networkError sampleYears).randomQuestions = []
    ∧ (settle (getRandomQuestion sampleWarm sampleArgs sampleYears) sampleWarm.inflight.length
        .networkError sampleYears).settled
        = (getRandomQuestion sampleWarm sampleArgs sampleYears).settled :=
  have h := background_refill_failure sampleWarm (normalizeTossup sampleTossup1)
    sampleArgs sampleBonusArgs sampleYears sampleYears sampleYears .networkError .network
    (by decide) rfl
  ⟨by decide, rfl, h.2.2.2.1, h.2.2.1⟩

/-- C7, as stated, fails: the call that empties the buffer sends its un-awaited
refill, the refill is answered with status 500 and a JSON batch, and line 53
stores the batch; `randomQuestions` does not stay empty, and the next call
returns a buffered question without sending a request. -/
theorem background_refill_status_500_stored :
    sampleWarm.randomQuestions = [normalizeTossup sampleTossup1]
    ∧ (getRandomQuestion sampleWarm sampleArgs sampleYears).randomQuestions = []
    ∧ (getRandomQuestion sampleWarm sampleArgs sampleYears).inflight
        = [{ body := requestBody sampleArgs sampleYears, awaiter := none }]
    ∧ sampleRefill500.randomQuestions
        = [normalizeTossup sampleTossup1, normalizeTossup sampleTossup3]
    ∧ sampleRefill500.settled = (getRandomQuestion sampleWarm sampleArgs sampleYears).settled
    ∧ (getRandomQuestion sampleRefill500 sampleArgs sampleYears).log = sampleRefill500.log
    ∧ (getRandomQuestion sampleRefill500 sampleArgs sampleYears).inflight = []
    ∧ (getRandomQuestion sampleRefill500 sampleArgs sampleYears).settled
        = sampleRefill500.settled ++ [(2, .fulfilled (some (normalizeTossup sampleTossup3)))] := by
  decide

/-! ## Draining the buffer -/

theorem runCalls_append {V : Type} (cs ds : List (CallArgs × YearRange)) (s : State V) :
    runCalls s (cs ++ ds) = runCalls (runCalls s cs) ds := by
  induction cs generalizing s with
  | nil => rfl
  | cons c cs ih => exact ih _

theorem runCalls_partial {V : Type} (cs : List (CallArgs × YearRange)) (s : State V)
    (rest ys : List (Question V)) (hrest : rest ≠ []) (hlen : ys.length = cs.length)
    (hbuf : s.randomQuestions = rest ++ ys.reverse) :
    runCalls s cs =
      { randomQuestions := rest
        inflight := s.inflight
        log := s.log
        calls := s.calls + cs.length
        settled := s.settled ++
          (List.enumFrom s.calls ys).map (fun p => (p.1, Settlement.fulfilled (some p.2))) } := by
  induction cs generalizing s ys with
  | nil =>
    have hys : ys = [] := List.length_eq_zero.mp hlen
    subst hys
    obtain ⟨b, i, l, c, t⟩ := s
    simp only [List.reverse_nil, List.append_nil] at hbuf
    simp [runCalls, hbuf]
  | cons c cs ih =>
    cases ys with
    | nil => simp at hlen
    | cons y ys =>
      have hlen' : ys.length = cs.length := by simpa using hlen
      have hbuf' : s.randomQuestions = (rest ++ ys.reverse) ++ [y] := by
        simp [hbuf]
      have hstep := getRandomQuestion_more s c.1 c.2 (rest ++ ys.reverse) y hbuf'
        (by simp [hrest])
      show runCalls (getRandomQuestion s c.1 c.2) cs = _
      rw [ih (getRandomQuestion s c.1 c.2) ys hlen' (by rw [hstep])]
      rw [hstep]
      simp [List.enumFrom_cons, Nat.add_assoc, Nat.add_comm 1]

/-- C2: from a buffer of `N ≥ 1` items, `N` consecutive calls return the `N`
items (last first) and leave the buffer empty; after any `k < N` of them no
request has been sent, and the `N`-th call sends exactly one request, for a
fetch nobody awaits: the call has returned by the end of its own step. -/
theorem drain_buffer {V : Type} (N : Nat) (s : State V) (cs : List (CallArgs × YearRange))
    (hN : 1 ≤ N) (hbuf : s.randomQuestions.length = N) (hcs : cs.length = N) :
    (runCalls s cs).randomQuestions = []
    ∧ (runCalls s cs).settled = s.settled ++
        (List.enumFrom s.calls s.randomQuestions.reverse).map
          (fun p => (p.1, Settlement.fulfilled (some p.2)))
    ∧ (∀ k, k < N → (runCalls s (cs.take k)).log = s.log
        ∧ (runCalls s (cs.take k)).inflight = s.inflight)
    ∧ (∃ a dom, cs.getLast? = some (a, dom)
        ∧ (runCalls s cs).log = s.log ++ [{ body := requestBody a dom, bufferAtIssue := [] }]
        ∧ (runCalls s cs).inflight
            = s.inflight ++ [{ body := requestBody a dom, awaiter := none }]) := by
  obtain ⟨x, tl, hx⟩ : ∃ x tl, s.randomQuestions = x :: tl := by
    cases h : s.randomQuestions with
    | nil => rw [h] at hbuf; simp at hbuf; omega
    | cons x tl => exact ⟨x, tl, rfl⟩
  have htl : tl.length + 1 = N := by rw [hx] at hbuf; simpa using hbuf
  have hcsne : cs ≠ [] := by
    intro h
    rw [h] at hcs
    simp at hcs
    omega
  obtain ⟨cs', c, rfl⟩ : ∃ cs' c, cs = cs' ++ [c] :=
    ⟨cs.dropLast, cs.getLast hcsne, (List.dropLast_append_getLast hcsne).symm⟩
  have hcs' : cs'.length = tl.length := by
    simp at hcs
    omega
  have hfirst := runCalls_partial cs' s [x] tl.reverse (by simp) (by simp [hcs'])
    (by simp [hx])
  have hlast : runCalls s (cs' ++ [c]) = getRandomQuestion (runCalls s cs') c.1 c.2 := by
    rw [runCalls_append]
    rfl
  have hstep := getRandomQuestion_last (runCalls s cs') c.1 c.2 x (by rw [hfirst])
  rw [hlast, hstep, hfirst]
  refine ⟨rfl, ?_, ?_, c.1, c.2, by simp, rfl, rfl⟩
  · simp [hx, List.enumFrom_append, hcs']
  · intro k hk
    have hk' : k ≤ cs'.length := by omega
    rw [List.take_append_of_le_length hk']
    have hsplit : tl = (tl.reverse.drop k).reverse ++ (tl.reverse.take k).reverse := by
      rw [← List.reverse_append, List.take_append_drop, List.reverse_reverse]
    have hpart := runCalls_partial (cs'.take k) s (x :: (tl.reverse.drop k).reverse)
      (tl.reverse.take k) (by simp)
      (by simp only [List.length_take, List.length_reverse]; omega)
      (by rw [hx, List.cons_append, ← hsplit])
    rw [hpart]
    exact ⟨rfl, rfl⟩

theorem drain_buffer_witness :
    1 ≤ 3
    ∧ sampleFull.randomQuestions.length = 3
    ∧ [(sampleArgs, sampleYears), (sampleBonusArgs, sampleYears), (sampleArgs, sampleYears)].length
        = 3
    ∧ (runCalls sampleFull
        [(sampleArgs, sampleYears), (sampleBonusArgs, sampleYears),
          (sampleArgs, sampleYears)]).randomQuestions = []
    ∧ (runCalls sampleFull
        [(sampleArgs, sampleYears), (sampleBonusArgs, sampleYears),
          (sampleArgs, sampleYears)]).settled
        = sampleFull.settled ++
          (List.enumFrom sampleFull.calls sampleFull.randomQuestions.reverse).map
            (fun p => (p.1, Settlement.fulfilled (some p.2))) :=
  have h := drain_buffer 3 sampleFull
    [(sampleArgs, sampleYears), (sampleBonusArgs, sampleYears), (sampleArgs, sampleYears)]
    (by decide) (by decide) rfl
  ⟨by decide, by decide, rfl, h.1, h.2.1⟩

/-! ## Case analysis of one step -/

theorem getRandomQuestion_cases {V : Type} (s : State V) (a : CallArgs) (dom : YearRange) :
    (s.randomQuestions = [] ∧
      getRandomQuestion s a dom =
        { randomQuestions := []
          inflight := s.inflight ++ [{ body := requestBody a dom, awaiter := some (s.calls, a) }]
          log := s.log ++ [{ body := requestBody a dom, bufferAtIssue := [] }]
          calls := s.calls + 1
          settled := s.settled })
    ∨ (∃ x, s.randomQuestions = [x] ∧
      getRandomQuestion s a dom =
        { randomQuestions := []
          inflight := s.inflight ++ [{ body := requestBody a dom, awaiter := none }]
          log := s.log ++ [{ body := requestBody a dom, bufferAtIssue := [] }]
          calls := s.calls + 1
          settled := s.settled ++ [(s.calls, .fulfilled (some x))] })
    ∨ (∃ xs x, xs ≠ [] ∧ s.randomQuestions = xs ++ [x] ∧
      getRandomQuestion s a dom =
        { randomQuestions := xs
          inflight := s.inflight
          log := s.log
          calls := s.calls + 1
          settled := s.settled ++ [(s.calls, .fulfilled (some x))] }) := by
  by_cases h : s.randomQuestions = []
  · exact Or.inl ⟨h, getRandomQuestion_cold s a dom h⟩
  · have hsplit : s.randomQuestions
        = s.randomQuestions.dropLast ++ [s.randomQuestions.getLast h] :=
      (List.dropLast_append_getLast h).symm
    by_cases hxs : s.randomQuestions.dropLast = []
    · refine Or.inr (Or.inl ⟨s.randomQuestions.getLast h, ?_, ?_⟩)
      · rw [hxs] at hsplit
        simpa using hsplit
      · apply getRandomQuestion_last
        rw [hxs] at hsplit
        simpa using hsplit
    · exact Or.inr (Or.inr ⟨_, _, hxs, hsplit, getRandomQuestion_more s a dom _ _ hsplit hxs⟩)

theorem settle_none {V : Type} (s : State V) (i : Nat)
    (resp : Response (List (Question V))) (dom : YearRange)
    (hload : s.inflight[i]? = none) : settle s i resp dom = s := by
  simp [settle, hload]

theorem settle_cases {V : Type} (s : State V) (i : Nat)
    (resp : Response (List (Question V))) (dom : YearRange) :
    (s.inflight[i]? = none ∧ settle s i resp dom = s)
    ∨ (∃ load e, s.inflight[i]? = some load ∧ fetchJson resp = .error e ∧
        (settle s i resp dom).randomQuestions = s.randomQuestions ∧
        (settle s i resp dom).inflight = s.inflight.eraseIdx i ∧
        (settle s i resp dom).log = s.log ∧
        (settle s i resp dom).calls = s.calls ∧
        ((load.awaiter = none ∧ (settle s i resp dom).settled = s.settled)
          ∨ (∃ c a, load.awaiter = some (c, a) ∧
              (settle s i resp dom).settled = s.settled ++ [(c, .rejected e)])))
    ∨ (∃ load questions, s.inflight[i]? = some load ∧ fetchJson resp = .ok questions ∧
        load.awaiter = none ∧
        settle s i resp dom =
          { s with
            inflight := s.inflight.eraseIdx i
            randomQuestions := normalizeQuestions load.body.questionType questions })
    ∨ (∃ load questions c a, s.inflight[i]? = some load ∧ fetchJson resp = .ok questions ∧
        load.awaiter = some (c, a) ∧
        settle s i resp dom =
          { randomQuestions := (normalizeQuestions load.body.questionType questions).dropLast
            inflight :=
              if (normalizeQuestions load.body.questionType questions).dropLast.length = 0 then
                s.inflight.eraseIdx i ++ [{ body := requestBody a dom, awaiter := none }]
              else s.inflight.eraseIdx i
            log :=
              if (normalizeQuestions load.body.questionType questions).dropLast.length = 0 then
                s.log ++ [{ body := requestBody a dom, bufferAtIssue := [] }]
              else s.log
            calls := s.calls
            settled := s.settled ++
              [(c, .fulfilled (normalizeQuestions load.body.questionType questions).getLast?)] }) := by
  cases hload : s.inflight[i]? with
  | none => exact Or.inl ⟨rfl, settle_none s i resp dom hload⟩
  | some load =>
    obtain ⟨body, awaiter⟩ := load
    cases hresp : fetchJson resp with
    | error e =>
      refine Or.inr (Or.inl ⟨_, e, rfl, rfl, ?_⟩)
      cases awaiter with
      | none =>
        rw [settle_rejected_background s i resp dom body e hload hresp]
        exact ⟨rfl, rfl, rfl, rfl, Or.inl ⟨rfl, rfl⟩⟩
      | some p =>
        obtain ⟨c, a⟩ := p
        rw [settle_rejected_awaited s i resp dom body c a e hload hresp]
        exact ⟨rfl, rfl, rfl, rfl, Or.inr ⟨c, a, rfl, rfl⟩⟩
    | ok questions =>
      cases awaiter with
      | none =>
        exact Or.inr (Or.inr (Or.inl ⟨_, questions, rfl, rfl, rfl,
          settle_ok_background s i resp dom body questions hload hresp⟩))
      | some p =>
        obtain ⟨c, a⟩ := p
        exact Or.inr (Or.inr (Or.inr ⟨_, questions, c, a, rfl, rfl, rfl,
          settle_ok_awaited s i resp dom body c a questions hload hresp⟩))

/-! ## The refill race -/

theorem step_log_issued_empty {V : Type} (s : State V) (e : Event V)
    (h : ∀ entry ∈ s.log, entry.bufferAtIssue = []) :
    ∀ entry ∈ (step s e).log, entry.bufferAtIssue = [] := by
  cases e with
  | call a dom =>
    show ∀ entry ∈ (getRandomQuestion s a dom).log, _
    rcases getRandomQuestion_cases s a dom with ⟨_, hs⟩ | ⟨x, _, hs⟩ | ⟨xs, x, _, _, hs⟩
    · rw [hs]
      intro entry hentry
      rcases List.mem_append.mp hentry with h1 | h1
      · exact h entry h1
      · rw [List.mem_singleton.mp h1]
    · rw [hs]
      intro entry hentry
      rcases List.mem_append.mp hentry with h1 | h1
      · exact h entry h1
      · rw [List.mem_singleton.mp h1]
    · rw [hs]
      exact h
  | settle i resp dom =>
    show ∀ entry ∈ (settle s i resp dom).log, _
    rcases settle_cases s i resp dom with
      ⟨_, hs⟩ | ⟨load, e, _, _, _, _, hlog, _, _⟩ | ⟨load, qs, _, _, _, hs⟩
        | ⟨load, qs, c, a, _, _, _, hs⟩
    · rw [hs]
      exact h
    · rw [hlog]
      exact h
    · rw [hs]
      exact h
    · rw [hs]
      intro entry hentry
      simp only at hentry
      split at hentry
      · rcases List.mem_append.mp hentry with h1 | h1
        · exact h entry h1
        · rw [List.mem_singleton.mp h1]
      · exact h entry hentry

theorem run_log_issued_empty {V : Type} (es : List (Event V)) (s : State V)
    (h : ∀ entry ∈ s.log, entry.bufferAtIssue = []) :
    ∀ entry ∈ (run s es).log, entry.bufferAtIssue = [] := by
  induction es generalizing s with
  | nil => exact h
  | cons e es ih => exact ih (step s e) (step_log_issued_empty s e h)

theorem step_single_flight {V : Type} (s : State V) (e : Event V)
    (hinv : s.inflight ≠ [] → s.randomQuestions = [])
    (hone : s.inflight.length ≤ 1) :
    (step s e).inflight ≠ [] → (step s e).randomQuestions = [] := by
  cases e with
  | call a dom =>
    show (getRandomQuestion s a dom).inflight ≠ [] → (getRandomQuestion s a dom).randomQuestions = []
    rcases getRandomQuestion_cases s a dom with ⟨_, hs⟩ | ⟨x, _, hs⟩ | ⟨xs, x, hxs, hbuf, hs⟩
    · rw [hs]
      intro _
      rfl
    · rw [hs]
      intro _
      rfl
    · rw [hs]
      intro hin
      have := hinv hin
      rw [hbuf] at this
      simp at this
  | settle i resp dom =>
    show (settle s i resp dom).inflight ≠ [] → (settle s i resp dom).randomQuestions = []
    have herase : ∀ load, s.inflight[i]? = some load → s.inflight.eraseIdx i = [] := by
      intro load hload
      cases hl : s.inflight with
      | nil => rw [hl] at hload; simp at hload
      | cons l ls =>
        have hls : ls = [] := by
          rw [hl] at hone
          simp at hone
          exact hone
        subst hls
        cases i with
        | zero => rfl
        | succ j => rw [hl] at hload; simp at hload
    rcases settle_cases s i resp dom with
      ⟨_, hs⟩ | ⟨load, e, hload, _, _, hin, _, _, _⟩ | ⟨load, qs, hload, _, _, hs⟩
        | ⟨load, qs, c, a, hload, _, _, hs⟩
    · rw [hs]
      exact hinv
    · rw [hin, herase load hload]
      intro h
      exact absurd rfl h
    · rw [hs]
      simp only [herase load hload]
      intro h
      exact absurd rfl h
    · rw [hs]
      simp only [herase load hload]
      intro h
      split at h
      · next hz => exact List.length_eq_zero.mp hz
      · exact absurd rfl h

theorem run_single_flight {V : Type} (es : List (Event V)) (s : State V)
    (hinv : s.inflight ≠ [] → s.randomQuestions = [])
    (hsf : singleFlight s es = true) :
    (run s es).inflight ≠ [] → (run s es).randomQuestions = [] := by
  induction es generalizing s with
  | nil => exact hinv
  | cons e es ih =>
    simp only [singleFlight, Bool.and_eq_true, decide_eq_true_eq] at hsf
    exact ih (step s e) (step_single_flight s e hinv hsf.1) hsf.2

/-- C8 (amended): along any interleaving of calls and settlements from the
initial state, every request was sent at a moment when `randomQuestions` was
empty; and as long as at most one fetch has been in flight at any time, a
fetch that is in flight finds `randomQuestions` empty when it settles. -/
theorem refill_race {V : Type} (es : List (Event V)) :
    (∀ entry ∈ (run (initial V) es).log, entry.bufferAtIssue = [])
    ∧ (singleFlight (initial V) es = true → (run (initial V) es).inflight ≠ [] →
        (run (initial V) es).randomQuestions = []) := by
  refine ⟨run_log_issued_empty es (initial V) ?_, fun hsf => ?_⟩
  · intro entry hentry
    simp [initial] at hentry
  · exact run_single_flight es (initial V) (fun _ => rfl) hsf

theorem refill_race_witness :
    singleFlight (initial String) (raceEvents.take 2) = true
    ∧ (run (initial String) (raceEvents.take 2)).inflight ≠ []
    ∧ (run (initial String) (raceEvents.take 2)).randomQuestions = [] :=
  ⟨by decide, by decide, (refill_race (raceEvents.take 2)).2 (by decide) (by decide)⟩

/-- C8, as stated, fails: with the refill and a second cold-start fetch both in
flight, the refill stores two questions, and the settlement of the other fetch
then replaces them before any call has consumed them. -/
theorem refill_race_overwrites :
    (run (initial String) raceEvents).randomQuestions
        = [normalizeTossup sampleTossup1, normalizeTossup sampleTossup3]
    ∧ (run (initial String) raceEvents).inflight
        = [{ body := requestBody sampleBonusArgs sampleYears, awaiter := some (1, sampleBonusArgs) }]
    ∧ (settle (run (initial String) raceEvents) 0
        (.http 200 (.json [sampleBonus1, sampleBonus2])) sampleYears).randomQuestions
        = [normalizeBonus sampleBonus1]
    ∧ (settle (run (initial String) raceEvents) 0
        (.http 200 (.json [sampleBonus1, sampleBonus2])) sampleYears).settled
        = [(0, .fulfilled (some sampleTossup2)), (1, .fulfilled (some sampleBonus2))] := by
  decide

/-! ## Filters -/

theorem servedFor_append {V : Type} (m : RequestBody → Question V → Bool)
    (log new : List (LogEntry V)) (x : Question V) (h : servedFor m log x) :
    servedFor m (log ++ new) x := by
  obtain ⟨entry, hentry, q, hq, hx⟩ := h
  exact ⟨entry, List.mem_append_left _ hentry, q, hq, hx⟩

theorem servedFor_batch {V : Type} (m : RequestBody → Question V → Bool)
    (log : List (LogEntry V)) (body : RequestBody) (questions : List (Question V))
    (hbody : ∃ entry ∈ log, entry.body = body)
    (hall : questions.all (m body) = true) :
    ∀ x ∈ normalizeQuestions body.questionType questions, servedFor m log x := by
  intro x hx
  rw [normalizeQuestions_eq_map] at hx
  obtain ⟨q, hq, rfl⟩ := List.mem_map.mp hx
  obtain ⟨entry, hentry, hb⟩ := hbody
  refine ⟨entry, hentry, q, ?_, ?_⟩
  · rw [hb]
    exact List.all_eq_true.mp hall q hq
  · rw [hb]

theorem getRandomQuestion_filterInv {V : Type} (m : RequestBody → Question V → Bool)
    (s : State V) (a : CallArgs) (dom : YearRange) (h : FilterInv m s) :
    FilterInv m (getRandomQuestion s a dom) := by
  obtain ⟨hbuf, hin, hset⟩ := h
  rcases getRandomQuestion_cases s a dom with ⟨_, hs⟩ | ⟨x, hx, hs⟩ | ⟨xs, x, _, hx, hs⟩
  · rw [hs]
    refine ⟨?_, ?_, ?_⟩
    · intro x hx
      simp at hx
    · intro load hload
      rcases List.mem_append.mp hload with h1 | h1
      · obtain ⟨entry, hentry, hb⟩ := hin load h1
        exact ⟨entry, List.mem_append_left _ hentry, hb⟩
      · rw [List.mem_singleton.mp h1]
        exact ⟨_, List.mem_append_right _ (List.mem_singleton.mpr rfl), rfl⟩
    · intro c x hcx
      exact servedFor_append m _ _ x (hset c x hcx)
  · rw [hs]
    refine ⟨?_, ?_, ?_⟩
    · intro y hy
      simp at hy
    · intro load hload
      rcases List.mem_append.mp hload with h1 | h1
      · obtain ⟨entry, hentry, hb⟩ := hin load h1
        exact ⟨entry, List.mem_append_left _ hentry, hb⟩
      · rw [List.mem_singleton.mp h1]
        exact ⟨_, List.mem_append_right _ (List.mem_singleton.mpr rfl), rfl⟩
    · intro c y hcy
      apply servedFor_append
      rcases List.mem_append.mp hcy with h1 | h1
      · exact hset c y h1
      · have h2 := List.mem_singleton.mp h1
        simp only [Prod.mk.injEq, Settlement.fulfilled.injEq, Option.some.injEq] at h2
        rw [h2.2]
        exact hbuf x (by rw [hx]; simp)
  · rw [hs]
    refine ⟨?_, hin, ?_⟩
    · intro y hy
      exact hbuf y (by rw [hx]; exact List.mem_append_left _ hy)
    · intro c y hcy
      rcases List.mem_append.mp hcy with h1 | h1
      · exact hset c y h1
      · have h2 := List.mem_singleton.mp h1
        simp only [Prod.mk.injEq, Settlement.fulfilled.injEq, Option.some.injEq] at h2
        rw [h2.2]
        exact hbuf x (by rw [hx]; simp)

theorem settle_filterInv {V : Type} (m : RequestBody → Question V → Bool)
    (s : State V) (i : Nat) (resp : Response (List (Question V))) (dom : YearRange)
    (h : FilterInv m s)
    (hhonest : ∀ load questions, s.inflight[i]? = some load → fetchJson resp = .ok questions →
      questions.all (m load.body) = true) :
    FilterInv m (settle s i resp dom) := by
  obtain ⟨hbuf, hin, hset⟩ := h
  rcases settle_cases s i resp dom with
    ⟨_, hs⟩ | ⟨load, e, hload, _, hb, hi, hl, _, hst⟩ | ⟨load, qs, hload, hresp, _, hs⟩
      | ⟨load, qs, c, a, hload, hresp, _, hs⟩
  · rw [hs]
    exact ⟨hbuf, hin, hset⟩
  · refine ⟨?_, ?_, ?_⟩
    · rw [hb, hl]
      exact hbuf
    · rw [hi, hl]
      intro l hl'
      exact hin l (List.mem_of_mem_eraseIdx hl')
    · rw [hl]
      rcases hst with ⟨_, hst⟩ | ⟨c, a, _, hst⟩
      · rw [hst]
        exact hset
      · rw [hst]
        intro c' x hcx
        rcases List.mem_append.mp hcx with h1 | h1
        · exact hset c' x h1
        · have h2 := List.mem_singleton.mp h1
          simp at h2
  · rw [hs]
    refine ⟨?_, ?_, hset⟩
    · exact servedFor_batch m s.log load.body qs (hin load (List.getElem?_mem hload))
        (hhonest load qs hload hresp)
    · intro l hl'
      exact hin l (List.mem_of_mem_eraseIdx hl')
  · have hserved := servedFor_batch m s.log load.body qs (hin load (List.getElem?_mem hload))
      (hhonest load qs hload hresp)
    rw [hs]
    by_cases hz : (normalizeQuestions load.body.questionType qs).dropLast.length = 0
    · simp only [hz, if_true]
      refine ⟨?_, ?_, ?_⟩
      · intro x hx
        exact servedFor_append m _ _ x (hserved x (List.mem_of_mem_dropLast hx))
      · intro l hl'
        rcases List.mem_append.mp hl' with h1 | h1
        · obtain ⟨entry, hentry, hb⟩ := hin l (List.mem_of_mem_eraseIdx h1)
          exact ⟨entry, List.mem_append_left _ hentry, hb⟩
        · rw [List.mem_singleton.mp h1]
          exact ⟨_, List.mem_append_right _ (List.mem_singleton.mpr rfl), rfl⟩
      · intro c' x hcx
        apply servedFor_append
        rcases List.mem_append.mp hcx with h1 | h1
        · exact hset c' x h1
        · have h2 := List.mem_singleton.mp h1
          simp only [Prod.mk.injEq, Settlement.fulfilled.injEq] at h2
          exact hserved x (List.mem_of_getLast?_eq_some h2.2.symm)
    · simp only [hz, if_false]
      refine ⟨?_, ?_, ?_⟩
      · intro x hx
        exact hserved x (List.mem_of_mem_dropLast hx)
      · intro l hl'
        exact hin l (List.mem_of_mem_eraseIdx hl')
      · intro c' x hcx
        rcases List.mem_append.mp hcx with h1 | h1
        · exact hset c' x h1
        · have h2 := List.mem_singleton.mp h1
          simp only [Prod.mk.injEq, Settlement.fulfilled.injEq] at h2
          exact hserved x (List.mem_of_getLast?_eq_some h2.2.symm)

theorem run_filterInv {V : Type} (m : RequestBody → Question V → Bool)
    (es : List (Event V)) (s : State V) (h : FilterInv m s)
    (hhonest : honest m s es = true) : FilterInv m (run s es) := by
  induction es generalizing s with
  | nil => exact h
  | cons e es ih =>
    cases e with
    | call a dom =>
      exact ih (getRandomQuestion s a dom) (getRandomQuestion_filterInv m s a dom h) hhonest
    | settle i resp dom =>
      simp only [honest, Bool.and_eq_true] at hhonest
      refine ih (settle s i resp dom) (settle_filterInv m s i resp dom h ?_) hhonest.2
      intro load questions hload hresp
      have h1 := hhonest.1
      rw [hload, hresp] at h1
      exact h1

theorem step_sameFiltersInv {V : Type} (a0 : CallArgs) (d0 : YearRange) (s : State V)
    (e : Event V) (h : SameFiltersInv a0 d0 s)
    (he : e.yearRange = d0 ∧ ∀ a d, e = .call a d → a = a0) :
    SameFiltersInv a0 d0 (step s e) := by
  obtain ⟨hlog, hin⟩ := h
  have hnew : ∀ (a : CallArgs) (dom : YearRange) (log : List (LogEntry V)), a = a0 → dom = d0 →
      (∀ entry ∈ log, entry.body = requestBody a0 d0) →
      ∀ entry ∈ log ++ [{ body := requestBody a dom, bufferAtIssue := [] }],
        entry.body = requestBody a0 d0 := by
    intro a dom log ha hd hl entry hentry
    rcases List.mem_append.mp hentry with h1 | h1
    · exact hl entry h1
    · rw [List.mem_singleton.mp h1, ha, hd]
  cases e with
  | call a dom =>
    have ha : a = a0 := he.2 a dom rfl
    have hd : dom = d0 := he.1
    show SameFiltersInv a0 d0 (getRandomQuestion s a dom)
    rcases getRandomQuestion_cases s a dom with ⟨_, hs⟩ | ⟨x, _, hs⟩ | ⟨xs, x, _, _, hs⟩
    · rw [hs]
      refine ⟨hnew a dom s.log ha hd hlog, ?_⟩
      intro load hload c a' haw
      rcases List.mem_append.mp hload with h1 | h1
      · exact hin load h1 c a' haw
      · rw [List.mem_singleton.mp h1] at haw
        simp only [Option.some.injEq, Prod.mk.injEq] at haw
        rw [← haw.2, ha]
    · rw [hs]
      refine ⟨hnew a dom s.log ha hd hlog, ?_⟩
      intro load hload c a' haw
      rcases List.mem_append.mp hload with h1 | h1
      · exact hin load h1 c a' haw
      · rw [List.mem_singleton.mp h1] at haw
        simp at haw
    · rw [hs]
      exact ⟨hlog, hin⟩
  | settle i resp dom =>
    have hd : dom = d0 := he.1
    show SameFiltersInv a0 d0 (settle s i resp dom)
    have hin' : ∀ load ∈ s.inflight.eraseIdx i, ∀ c a, load.awaiter = some (c, a) → a = a0 :=
      fun load hload => hin load (List.mem_of_mem_eraseIdx hload)
    rcases settle_cases s i resp dom with
      ⟨_, hs⟩ | ⟨load, e, _, _, _, hi, hl, _, _⟩ | ⟨load, qs, _, _, _, hs⟩
        | ⟨load, qs, c, a, hload, _, haw, hs⟩
    · rw [hs]
      exact ⟨hlog, hin⟩
    · refine ⟨?_, ?_⟩
      · rw [hl]
        exact hlog
      · rw [hi]
        exact hin'
    · rw [hs]
      exact ⟨hlog, hin'⟩
    · have ha : a = a0 := hin load (List.getElem?_mem hload) c a haw
      rw [hs]
      by_cases hz : (normalizeQuestions load.body.questionType qs).dropLast.length = 0
      · simp only [hz, if_true]
        refine ⟨hnew a dom s.log ha hd hlog, ?_⟩
        intro l hl' c' a' haw'
        rcases List.mem_append.mp hl' with h1 | h1
        · exact hin' l h1 c' a' haw'
        · rw [List.mem_singleton.mp h1] at haw'
          simp at haw'
      · simp only [hz, if_false]
        exact ⟨hlog, hin'⟩

theorem run_sameFiltersInv {V : Type} (a0 : CallArgs) (d0 : YearRange) (es : List (Event V))
    (s : State V) (h : SameFiltersInv a0 d0 s)
    (hes : ∀ e ∈ es, e.yearRange = d0 ∧ ∀ a d, e = .call a d → a = a0) :
    SameFiltersInv a0 d0 (run s es) := by
  induction es generalizing s with
  | nil => exact h
  | cons e es ih =>
    exact ih (step s e)
      (step_sameFiltersInv a0 d0 s e h (hes e (List.mem_cons_self _ _)))
      (fun e' he' => hes e' (List.mem_cons_of_mem _ he'))

theorem servedFor_of_batchInv {V : Type} (m : RequestBody → Question V → Bool)
    (s : State V) (h : BatchInv m s) : ∀ x ∈ s.randomQuestions, servedFor m s.log x := by
  intro x hx
  rcases h with h | ⟨entry, hentry, hall⟩
  · rw [h] at hx
    simp at hx
  · exact ⟨entry, hentry, hall x hx⟩

theorem servedBy_batch {V : Type} (m : RequestBody → Question V → Bool)
    (entry : LogEntry V) (body : RequestBody) (questions : List (Question V))
    (hbody : entry.body = body) (hall : questions.all (m body) = true) :
    ∀ x ∈ normalizeQuestions body.questionType questions, servedBy m entry x := by
  intro x hx
  rw [normalizeQuestions_eq_map] at hx
  obtain ⟨q, hq, rfl⟩ := List.mem_map.mp hx
  refine ⟨q, ?_, ?_⟩
  · rw [hbody]
    exact List.all_eq_true.mp hall q hq
  · rw [hbody]

theorem getRandomQuestion_batchInv {V : Type} (m : RequestBody → Question V → Bool)
    (s : State V) (a : CallArgs) (dom : YearRange) (h : BatchInv m s) :
    BatchInv m (getRandomQuestion s a dom) := by
  rcases getRandomQuestion_cases s a dom with ⟨_, hs⟩ | ⟨x, _, hs⟩ | ⟨xs, x, hxs, hx, hs⟩
  · rw [hs]
    exact Or.inl rfl
  · rw [hs]
    exact Or.inl rfl
  · rw [hs]
    rcases h with h | ⟨entry, hentry, hall⟩
    · rw [hx] at h
      simp at h
    · exact Or.inr ⟨entry, hentry,
        fun y hy => hall y (by rw [hx]; exact List.mem_append_left _ hy)⟩

theorem settle_batchInv {V : Type} (m : RequestBody → Question V → Bool)
    (s : State V) (i : Nat) (resp : Response (List (Question V))) (dom : YearRange)
    (h : BatchInv m s)
    (hin : ∀ load ∈ s.inflight, ∃ entry ∈ s.log, entry.body = load.body)
    (hhonest : ∀ load questions, s.inflight[i]? = some load → fetchJson resp = .ok questions →
      questions.all (m load.body) = true) :
    BatchInv m (settle s i resp dom) := by
  rcases settle_cases s i resp dom with
    ⟨_, hs⟩ | ⟨load, e, hload, _, hb, _, hl, _, _⟩ | ⟨load, qs, hload, hresp, _, hs⟩
      | ⟨load, qs, c, a, hload, hresp, _, hs⟩
  · rw [hs]
    exact h
  · unfold BatchInv
    rw [hb, hl]
    exact h
  · obtain ⟨entry, hentry, hbody⟩ := hin load (List.getElem?_mem hload)
    rw [hs]
    exact Or.inr ⟨entry, hentry,
      servedBy_batch m entry load.body qs hbody (hhonest load qs hload hresp)⟩
  · obtain ⟨entry, hentry, hbody⟩ := hin load (List.getElem?_mem hload)
    have hserved := servedBy_batch m entry load.body qs hbody (hhonest load qs hload hresp)
    rw [hs]
    by_cases hz : (normalizeQuestions load.body.questionType qs).dropLast.length = 0
    · exact Or.inl (List.length_eq_zero.mp hz)
    · refine Or.inr ⟨entry, ?_, fun y hy => hserved y (List.mem_of_mem_dropLast hy)⟩
      simp only [hz, if_false]
      exact hentry

theorem run_batchInv {V : Type} (m : RequestBody → Question V → Bool)
    (es : List (Event V)) (s : State V) (h : BatchInv m s) (hf : FilterInv m s)
    (hhonest : honest m s es = true) : BatchInv m (run s es) := by
  induction es generalizing s with
  | nil => exact h
  | cons e es ih =>
    cases e with
    | call a dom =>
      exact ih (getRandomQuestion s a dom) (getRandomQuestion_batchInv m s a dom h)
        (getRandomQuestion_filterInv m s a dom hf) hhonest
    | settle i resp dom =>
      simp only [honest, Bool.and_eq_true] at hhonest
      have hstep : ∀ load questions, s.inflight[i]? = some load →
          fetchJson resp = .ok questions → questions.all (m load.body) = true := by
        intro load questions hload hresp
        have h1 := hhonest.1
        rw [hload, hresp] at h1
        exact h1
      exact ih (settle s i resp dom) (settle_batchInv m s i resp dom h hf.2.1 hstep)
        (settle_filterInv m s i resp dom hf hstep) hhonest.2

/-- C5 (amended): when the server answers every request with questions that
match the filters of that request, then in every state reached from the
initial one by calls and settlements, the buffer is empty or all the buffered
questions were served for one and the same request of the log: they match one
filter set, that of the call that sent the request whose batch is buffered,
which need not be the most recent call.  Every question a call has returned
was served for a request of the log.  When all the calls pass the same
arguments and the year range does not change, every request of the log carries
these filters, so that the buffered and the returned questions match the
filters of the most recent call. -/
theorem filter_invariant {V : Type} (matchesFilters : RequestBody → Question V → Bool)
    (es : List (Event V)) (hhonest : honest matchesFilters (initial V) es = true) :
    ((run (initial V) es).randomQuestions = []
      ∨ ∃ entry ∈ (run (initial V) es).log,
          ∀ x ∈ (run (initial V) es).randomQuestions, servedBy matchesFilters entry x)
    ∧ (∀ c x, (c, Settlement.fulfilled (some x)) ∈ (run (initial V) es).settled →
        servedFor matchesFilters (run (initial V) es).log x)
    ∧ (∀ a0 d0, (∀ e ∈ es, e.yearRange = d0 ∧ ∀ a d, e = .call a d → a = a0) →
        ∀ entry ∈ (run (initial V) es).log, entry.body = requestBody a0 d0) := by
  have hinit : FilterInv matchesFilters (initial V) := by
    refine ⟨?_, ?_, ?_⟩ <;> simp [initial]
  have h := run_filterInv matchesFilters es (initial V) hinit hhonest
  have hb := run_batchInv matchesFilters es (initial V) (Or.inl rfl) hinit hhonest
  refine ⟨hb, h.2.2, ?_⟩
  intro a0 d0 hes
  have hinit' : SameFiltersInv a0 d0 (initial V) := by
    refine ⟨?_, ?_⟩ <;> simp [initial]
  exact (run_sameFiltersInv a0 d0 es (initial V) hinit' hes).1

theorem filter_invariant_witness :
    honest sampleMatches (initial String) filterEvents = true
    ∧ ((run (initial String) filterEvents).randomQuestions = []
      ∨ ∃ entry ∈ (run (initial String) filterEvents).log,
          ∀ x ∈ (run (initial String) filterEvents).randomQuestions,
            servedBy sampleMatches entry x) :=
  ⟨by decide, (filter_invariant sampleMatches filterEvents (by decide)).1⟩

/-- C5, as stated, fails: after a cold start for tossups, a call for bonuses is
answered from the buffer with a tossup, and the question left in the buffer is
a tossup too, although the server answered the only request with questions that
match it. -/
theorem filter_change_keeps_buffer :
    honest sampleMatches (initial String) filterEvents = true
    ∧ filterEvents.getLast? = some (.call sampleBonusArgs sampleYears)
    ∧ (run (initial String) filterEvents).randomQuestions = [normalizeTossup sampleTossup1]
    ∧ sampleMatches (requestBody sampleBonusArgs sampleYears) (normalizeTossup sampleTossup1)
        = false
    ∧ (run (initial String) filterEvents).settled
        = [(0, .fulfilled (some (normalizeTossup sampleTossup3))),
           (1, .fulfilled (some sampleTossup2))]
    ∧ sampleMatches (requestBody sampleBonusArgs sampleYears) sampleTossup2 = false := by
  decide

end Singleplayer
